import Mathlib

/-!
Verification of the oracle-weather procedural engine core.

Shallow embedding of `src/engine/physics/atmosphere.py`,
`src/engine/physics/particles.py`, `src/engine/physics/noise.py` and
`src/engine/rendering/core.py`.  Exact float guards and rational
arithmetic are modelled over `ℚ`; quantities flowing through square
roots (vector magnitudes, simplex skew constants) are modelled over
`ℝ`.  Python list indexing (which raises on out-of-range indices) is
modelled with `Option`, and Python's `ZeroDivisionError` in
`FractalNoise.sample` is modelled by returning `none`.
-/

namespace OracleWeather

/-! ### Atmosphere (`src/engine/physics/atmosphere.py`) -/

/-- `StabilityClass` enum (Pasquill-Gifford), atmosphere.py lines 40-47. -/
inductive StabilityClass where
  | VERY_UNSTABLE
  | UNSTABLE
  | SLIGHTLY_UNSTABLE
  | NEUTRAL
  | SLIGHTLY_STABLE
  | STABLE
  deriving DecidableEq, Repr

/-- `AtmosphericModel.classify_stability`, atmosphere.py lines 166-199.
Only `wind_speed_ms` and `cloud_cover_percent` of the state are read. -/
def classify_stability (wind clouds : ℚ) : StabilityClass :=
  if wind < 2 then
    if clouds < 30 then StabilityClass.VERY_UNSTABLE
    else if clouds < 70 then StabilityClass.UNSTABLE
    else StabilityClass.NEUTRAL
  else if wind < 5 then
    if clouds < 30 then StabilityClass.UNSTABLE
    else if clouds < 70 then StabilityClass.SLIGHTLY_UNSTABLE
    else StabilityClass.NEUTRAL
  else if wind < 8 then StabilityClass.NEUTRAL
  else
    if clouds > 70 then StabilityClass.NEUTRAL
    else StabilityClass.SLIGHTLY_STABLE

/-- Wind-speed band index from the spec's decision table:
bands `<2`, `<5`, `<8`, `≥8` m/s. -/
def windBand (wind : ℚ) : Fin 4 :=
  if wind < 2 then 0 else if wind < 5 then 1 else if wind < 8 then 2 else 3

/-- Cloud-cover band index from the spec's decision table:
bands `<30`, `<70`, `≥70` percent.  (The code itself is not a function of
these bands at `clouds = 70` exactly: the calm rows test `clouds < 70`
while the strong-wind row tests `clouds > 70`.) -/
def cloudBand (clouds : ℚ) : Fin 3 :=
  if clouds < 30 then 0 else if clouds < 70 then 1 else 2

/-- The 2D decision table over wind band × cloud band that
`classify_stability` implements. -/
def stabilityTable : Fin 4 → Fin 3 → StabilityClass
  | 0, 0 => StabilityClass.VERY_UNSTABLE
  | 0, 1 => StabilityClass.UNSTABLE
  | 0, 2 => StabilityClass.NEUTRAL
  | 1, 0 => StabilityClass.UNSTABLE
  | 1, 1 => StabilityClass.SLIGHTLY_UNSTABLE
  | 1, 2 => StabilityClass.NEUTRAL
  | 2, _ => StabilityClass.NEUTRAL
  | 3, 2 => StabilityClass.NEUTRAL
  | 3, _ => StabilityClass.SLIGHTLY_STABLE

/-- `calculate_wind_chill`, atmosphere.py lines 340-356.  The
transcendental power `wind_kmh ** 0.16` is abstracted as the parameter
`pw` (the guard and pass-through behaviour do not depend on it). -/
def calculate_wind_chill (pw : ℚ → ℚ) (temp_c wind_speed_ms : ℚ) : ℚ :=
  let wind_kmh := wind_speed_ms * 3.6
  if temp_c ≥ 10 ∨ wind_kmh < 4.8 then temp_c
  else
    13.12 + 0.6215 * temp_c - 11.37 * pw wind_kmh + 0.3965 * temp_c * pw wind_kmh

/-- `calculate_heat_index`, atmosphere.py lines 359-383.  Note: the code
guards only on `temp_c < 27`; relative humidity is never checked. -/
def calculate_heat_index (temp_c humidity : ℚ) : ℚ :=
  if temp_c < 27 then temp_c
  else
    let temp_f := temp_c * 9 / 5 + 32
    let rh := humidity
    let hi_f :=
      -42.379 +
      2.04901523 * temp_f +
      10.14333127 * rh -
      0.22475541 * temp_f * rh -
      6.83783e-3 * temp_f ^ 2 -
      5.481717e-2 * rh ^ 2 +
      1.22874e-3 * temp_f ^ 2 * rh +
      8.5282e-4 * temp_f * rh ^ 2 -
      1.99e-6 * temp_f ^ 2 * rh ^ 2
    (hi_f - 32) * 5 / 9

/-! ### FrameBudget (`src/engine/rendering/core.py` lines 116-191) -/

/-- The adaptive-quality state of `FrameBudget`: `quality_level` and
`overrun_count` (rendering/core.py lines 142-143; `overrun_count` is a
Python `int`, modelled as `ℤ`). -/
structure QualityState where
  quality_level : ℚ
  overrun_count : ℤ
  deriving DecidableEq, Repr

/-- Initial adaptive-quality state: `quality_level = 1.0`,
`overrun_count = 0`. -/
def initQuality : QualityState := ⟨1, 0⟩

/-- `FrameBudget.adjust_quality`, rendering/core.py lines 174-185.
`B` is `frame_budget_ms`. -/
def adjust_quality (B : ℚ) (s : QualityState) (frame_time_ms : ℚ) : QualityState :=
  if frame_time_ms > B * 1.2 then
    let oc := s.overrun_count + 1
    if oc > 5 then ⟨max 0.3 (s.quality_level - 0.1), 0⟩
    else ⟨s.quality_level, oc⟩
  else if frame_time_ms < B * 0.7 then
    ⟨min 1.0 (s.quality_level + 0.02), max 0 (s.overrun_count - 1)⟩
  else s

/-- Folding `adjust_quality` over a list of frame times. -/
def adjustRun (B : ℚ) (s : QualityState) (frames : List ℚ) : QualityState :=
  frames.foldl (adjust_quality B) s

/-! ### RenderQueue (`src/engine/rendering/core.py` lines 31-268) -/

/-- `RenderLayer` enum, rendering/core.py lines 31-40. -/
inductive RenderLayer where
  | BACKGROUND
  | CLOUDS
  | PRECIPITATION
  | EFFECTS
  | CREATURES
  | UI_BACKGROUND
  | UI_FOREGROUND
  | DEBUG
  deriving DecidableEq, Repr

/-- The `value` of each `RenderLayer` enum member. -/
def RenderLayer.value : RenderLayer → ℤ
  | .BACKGROUND => 0
  | .CLOUDS => 10
  | .PRECIPITATION => 20
  | .EFFECTS => 30
  | .CREATURES => 40
  | .UI_BACKGROUND => 50
  | .UI_FOREGROUND => 60
  | .DEBUG => 100

/-- `RenderCommand` dataclass, rendering/core.py lines 208-219. -/
structure RenderCommand where
  x : ℤ
  y : ℤ
  char : Char
  colour : ℤ
  attr : ℤ := 0
  layer : RenderLayer := RenderLayer.PRECIPITATION
  deriving DecidableEq, Repr

/-- The dictionary key `(cmd.x, cmd.y, cmd.layer.value)` used by
`RenderQueue.add`. -/
def RenderCommand.key (c : RenderCommand) : ℤ × ℤ × ℤ := (c.x, c.y, c.layer.value)

/-- A Python `dict` as an insertion-ordered association list. -/
def RenderQueue := List ((ℤ × ℤ × ℤ) × RenderCommand)

/-- Python `dict` assignment `d[k] = v`: replaces in place if the key is
present, else appends. -/
def dictSet (k : ℤ × ℤ × ℤ) (c : RenderCommand) : RenderQueue → RenderQueue
  | [] => [(k, c)]
  | (k', c') :: rest => if k' = k then (k, c) :: rest else (k', c') :: dictSet k c rest

/-- Python `dict` lookup returning `none` when the key is absent. -/
def dictGet (k : ℤ × ℤ × ℤ) : RenderQueue → Option RenderCommand
  | [] => none
  | (k', c') :: rest => if k' = k then some c' else dictGet k rest

/-- `RenderQueue.add`, rendering/core.py lines 233-236. -/
def RenderQueue.add (c : RenderCommand) (q : RenderQueue) : RenderQueue :=
  dictSet c.key c q

/-- The queue built by a sequence of `add` calls on a fresh queue. -/
def buildQueue (cs : List RenderCommand) : RenderQueue :=
  cs.foldl (fun q c => RenderQueue.add c q) []

/-- Comparison used by `get_sorted`'s `key=lambda c: c.layer.value`. -/
def cmdLE (a b : RenderCommand) : Prop := a.layer.value ≤ b.layer.value

instance : DecidableRel cmdLE := fun _a _b => inferInstanceAs (Decidable (_ ≤ _))

instance : IsTotal RenderCommand cmdLE := ⟨fun a b => le_total a.layer.value b.layer.value⟩

instance : IsTrans RenderCommand cmdLE := ⟨fun _a _b _c h h' => le_trans h h'⟩

/-- `RenderQueue.get_sorted`, rendering/core.py lines 248-250: the dict's
values, stably sorted by layer value (Python's `sorted` is a stable sort;
any stable sort by the same key yields the same list). -/
def RenderQueue.get_sorted (q : RenderQueue) : List RenderCommand :=
  List.insertionSort cmdLE (q.map Prod.snd)

/-- The occupied keys of a queue. -/
def queueKeys (q : RenderQueue) : List (ℤ × ℤ × ℤ) := q.map Prod.fst

/-! ### Noise (`src/engine/physics/noise.py`)

`PerlinNoise`, `FractalNoise` and `DomainWarp` involve only rational
arithmetic and are embedded over `ℚ`; `SimplexNoise` (whose skew
constants involve `√3`) is embedded over `ℝ` further below.  The
permutation table is the seeded shuffle of `range(256)` doubled; the
embedding abstracts the host PRNG and quantifies over all permutations
`p` of `range(256)`, the table being `p ++ p`.  Python list indexing
raises on out-of-range indices, modelled with `Option`. -/

/-- `PerlinNoise._fade`, noise.py lines 70-80. -/
def fade (t : ℚ) : ℚ := t * t * t * (t * (t * 6 - 15) + 10)

/-- `PerlinNoise._lerp`, noise.py lines 82-85. -/
def lerp (t a b : ℚ) : ℚ := a + t * (b - a)

/-- `PerlinNoise._GRADIENTS_2D`, noise.py lines 53-56. -/
def GRADIENTS_2D : List (ℚ × ℚ) :=
  [(1, 1), (-1, 1), (1, -1), (-1, -1), (1, 0), (-1, 0), (0, 1), (0, -1)]

/-- `PerlinNoise._gradient`, noise.py lines 87-90 (`hash_val & 7` is
`hash_val % 8` on nonnegative ints). -/
def gradient (hash_val : ℕ) (x y : ℚ) : Option ℚ :=
  (GRADIENTS_2D[hash_val % 8]?).map fun g => g.1 * x + g.2 * y

/-- `PerlinNoise.sample`, noise.py lines 92-132, parameterized by the
doubled permutation table.  `int(math.floor(x)) & 255` is `⌊x⌋ % 256`. -/
def perlinSample (perm : List ℕ) (x y : ℚ) : Option ℚ :=
  let xi : ℕ := (⌊x⌋ % 256).toNat
  let yi : ℕ := (⌊y⌋ % 256).toNat
  let xf : ℚ := x - (⌊x⌋ : ℚ)
  let yf : ℚ := y - (⌊y⌋ : ℚ)
  let u := fade xf
  let v := fade yf
  do
    let pxi ← perm[xi]?
    let aa ← perm[pxi + yi]?
    let ab ← perm[pxi + yi + 1]?
    let pxi1 ← perm[xi + 1]?
    let ba ← perm[pxi1 + yi]?
    let bb ← perm[pxi1 + yi + 1]?
    let gaa ← gradient aa xf yf
    let gba ← gradient ba (xf - 1) yf
    let gab ← gradient ab xf (yf - 1)
    let gbb ← gradient bb (xf - 1) (yf - 1)
    let x1 := lerp u gaa gba
    let x2 := lerp u gab gbb
    pure (lerp v x1 x2)

/-- The octave loop of `FractalNoise.sample`, noise.py lines 264-277:
the state is `(total, frequency, amplitude, max_amplitude)`. -/
def fbmLoop (base : ℚ → ℚ → Option ℚ) (x y scale pers lac : ℚ) :
    ℕ → ℚ × ℚ × ℚ × ℚ → Option (ℚ × ℚ × ℚ × ℚ)
  | 0, st => some st
  | n + 1, (total, freq, amp, maxAmp) => do
      let nval ← base (x * freq * scale) (y * freq * scale)
      fbmLoop base x y scale pers lac n (total + nval * amp, freq * lac, amp * pers, maxAmp + amp)

/-- `FractalNoise.sample`, noise.py lines 251-280, with the effective
octave/persistence/lacunarity values as arguments.  `range(octaves)` is
empty for `octaves ≤ 0` (hence `Int.toNat`); the final division
`total / max_amplitude` raises `ZeroDivisionError` in Python when
`max_amplitude == 0`, modelled as `none`. -/
def fractalSample (base : ℚ → ℚ → Option ℚ) (scale : ℚ) (octaves : ℤ)
    (pers lac : ℚ) (x y : ℚ) : Option ℚ := do
  let st ← fbmLoop base x y scale pers lac octaves.toNat (0, 1, 1, 0)
  if st.2.2.2 = 0 then none else some (st.1 / st.2.2.2)

/-- `DomainWarp.sample`, noise.py lines 301-311, over a fractal noise
with the given parameters. -/
def domainWarpSample (base : ℚ → ℚ → Option ℚ) (scale : ℚ) (octaves : ℤ)
    (pers lac warp_strength : ℚ) (x y : ℚ) : Option ℚ := do
  let wxr ← fractalSample base scale octaves pers lac x y
  let wx := wxr * warp_strength
  let wyr ← fractalSample base scale octaves pers lac (x + 5.2) (y + 1.3)
  let wy := wyr * warp_strength
  let wx2r ← fractalSample base scale octaves pers lac (x + wx) (y + wy)
  let wx2 := wx2r * warp_strength * 0.5
  let wy2r ← fractalSample base scale octaves pers lac (x + wx + 1.7) (y + wy + 9.2)
  let wy2 := wy2r * warp_strength * 0.5
  fractalSample base scale octaves pers lac (x + wx + wx2) (y + wy + wy2)

noncomputable section RealModels

/-! ### SimplexNoise (`src/engine/physics/noise.py` lines 139-227) -/

/-- Skewing factor `_F2 = 0.5 * (sqrt(3) - 1)`, noise.py line 152. -/
def F2 : ℝ := 0.5 * (Real.sqrt 3 - 1)

/-- Unskewing factor `_G2 = (3 - sqrt(3)) / 6`, noise.py line 153. -/
def G2 : ℝ := (3 - Real.sqrt 3) / 6

/-- `SimplexNoise._GRAD3`, noise.py lines 156-160 (12 gradients). -/
def GRAD3 : List (ℝ × ℝ) :=
  [(1, 1), (-1, 1), (1, -1), (-1, -1), (1, 0), (-1, 0), (0, 1), (0, -1),
   (1, 1), (-1, 1), (1, -1), (-1, -1)]

/-- The hash-and-contribute body of `SimplexNoise.sample` (noise.py
lines 195-224): permutation-table lookups (`_perm_mod12` is the doubled
table entrywise `% 12`), the three corner contributions and the final
scaling by 70. -/
def simplexCore (perm : List ℕ) (ii jj i1 j1 : ℕ) (x0 y0 x1 y1 x2 y2 : ℝ) : Option ℝ :=
  let permMod12 := perm.map (· % 12)
  do
    let pjj ← perm[jj]?
    let gi0 ← permMod12[ii + pjj]?
    let pjj1 ← perm[jj + j1]?
    let gi1 ← permMod12[ii + i1 + pjj1]?
    let pjj2 ← perm[jj + 1]?
    let gi2 ← permMod12[ii + 1 + pjj2]?
    let g0 ← GRAD3[gi0]?
    let g1 ← GRAD3[gi1]?
    let g2 ← GRAD3[gi2]?
    let t0 := 0.5 - x0 * x0 - y0 * y0
    let n0 := if t0 ≥ 0 then (t0 * t0) * (t0 * t0) * (g0.1 * x0 + g0.2 * y0) else 0
    let t1 := 0.5 - x1 * x1 - y1 * y1
    let n1 := if t1 ≥ 0 then (t1 * t1) * (t1 * t1) * (g1.1 * x1 + g1.2 * y1) else 0
    let t2 := 0.5 - x2 * x2 - y2 * y2
    let n2 := if t2 ≥ 0 then (t2 * t2) * (t2 * t2) * (g2.1 * x2 + g2.2 * y2) else 0
    pure (70 * (n0 + n1 + n2))

/-- `SimplexNoise.sample`, noise.py lines 170-224, parameterized by the
doubled permutation table: skew/unskew the cell coordinates, pick the
simplex triangle, then run `simplexCore`. -/
def simplexSample (perm : List ℕ) (x y : ℝ) : Option ℝ :=
  let s := (x + y) * F2
  let i : ℤ := ⌊x + s⌋
  let j : ℤ := ⌊y + s⌋
  let t : ℝ := ((i : ℝ) + (j : ℝ)) * G2
  let X0 := (i : ℝ) - t
  let Y0 := (j : ℝ) - t
  let x0 := x - X0
  let y0 := y - Y0
  let ij1 : ℕ × ℕ := if x0 > y0 then (1, 0) else (0, 1)
  let i1 := ij1.1
  let j1 := ij1.2
  let x1 := x0 - (i1 : ℝ) + G2
  let y1 := y0 - (j1 : ℝ) + G2
  let x2 := x0 - 1 + 2 * G2
  let y2 := y0 - 1 + 2 * G2
  let ii : ℕ := (i % 256).toNat
  let jj : ℕ := (j % 256).toNat
  simplexCore perm ii jj i1 j1 x0 y0 x1 y1 x2 y2

/-! ### Particles (`src/engine/physics/particles.py`) -/

/-- `Vector2` dataclass, particles.py lines 56-107. -/
structure Vec2 where
  x : ℝ := 0
  y : ℝ := 0

namespace Vec2

/-- `Vector2.__add__`. -/
def add (a b : Vec2) : Vec2 := ⟨a.x + b.x, a.y + b.y⟩

/-- `Vector2.__sub__`. -/
def sub (a b : Vec2) : Vec2 := ⟨a.x - b.x, a.y - b.y⟩

/-- `Vector2.__mul__` (vector times scalar). -/
def mul (v : Vec2) (scalar : ℝ) : Vec2 := ⟨v.x * scalar, v.y * scalar⟩

/-- `Vector2.__truediv__`, particles.py lines 74-75: dividing by the zero
scalar returns the zero vector instead of raising. -/
def div (v : Vec2) (scalar : ℝ) : Vec2 :=
  if scalar ≠ 0 then ⟨v.x / scalar, v.y / scalar⟩ else ⟨0, 0⟩

/-- `Vector2.__neg__`. -/
def neg (v : Vec2) : Vec2 := ⟨-v.x, -v.y⟩

/-- `Vector2.magnitude`, particles.py lines 80-82. -/
def magnitude (v : Vec2) : ℝ := Real.sqrt (v.x * v.x + v.y * v.y)

/-- `Vector2.magnitude_squared`, particles.py lines 84-86. -/
def magnitude_squared (v : Vec2) : ℝ := v.x * v.x + v.y * v.y

/-- `Vector2.normalized`, particles.py lines 88-90: the zero vector
normalizes to the zero vector. -/
def normalized (v : Vec2) : Vec2 :=
  if v.magnitude > 0 then v.div v.magnitude else ⟨0, 0⟩

/-- `Vector2.dot`. -/
def dot (a b : Vec2) : ℝ := a.x * b.x + a.y * b.y

/-- `Vector2.clamped`, particles.py lines 95-99. -/
def clamped (v : Vec2) (max_magnitude : ℝ) : Vec2 :=
  if v.magnitude > max_magnitude then (v.normalized).mul max_magnitude
  else ⟨v.x, v.y⟩

end Vec2

/-- `IntegrationType` enum, particles.py lines 36-41. -/
inductive IntegrationType where
  | EULER
  | SEMI_IMPLICIT
  | VERLET
  | RK4
  deriving DecidableEq, Repr

/-- `PhysicsConfig` dataclass, particles.py lines 44-53. -/
structure PhysicsConfig where
  gravity : ℝ := 0.5
  air_resistance : ℝ := 0.02
  wind_strength : ℝ := 0
  integration : IntegrationType := IntegrationType.SEMI_IMPLICIT
  substeps : ℕ := 1
  max_velocity : ℝ := 10
  bounds_check : Bool := true

/-- `Particle` dataclass, particles.py lines 110-147 (visual fields kept
for fidelity; `age`/`max_age` are Python ints). -/
structure Particle where
  position : Vec2 := {}
  velocity : Vec2 := {}
  acceleration : Vec2 := {}
  prev_position : Vec2 := {}
  mass : ℝ := 1
  inverse_mass : ℝ := 1
  radius : ℝ := 0.5
  drag_coefficient : ℝ := 0.47
  restitution : ℝ := 0.3
  friction : ℝ := 0.5
  buoyancy_factor : ℝ := 0
  char : Char := '*'
  colour : ℤ := 7
  age : ℤ := 0
  max_age : ℤ := -1
  alive : Bool := true
  accumulated_force : Vec2 := {}

namespace Particle

/-- `Particle.apply_force`. -/
def apply_force (p : Particle) (force : Vec2) : Particle :=
  { p with accumulated_force := p.accumulated_force.add force }

/-- `Particle.clear_forces`. -/
def clear_forces (p : Particle) : Particle :=
  { p with accumulated_force := {} }

/-- `Particle.integrate_euler`, particles.py lines 165-174 (note the
position update reads the already-updated velocity, exactly as written). -/
def integrate_euler (p : Particle) (dt : ℝ) : Particle :=
  let acc := p.accumulated_force.mul p.inverse_mass
  let vel := p.velocity.add (acc.mul dt)
  let pos := p.position.add (vel.mul dt)
  { p with acceleration := acc, velocity := vel, position := pos }

/-- `Particle.integrate_semi_implicit`, particles.py lines 176-183. -/
def integrate_semi_implicit (p : Particle) (dt : ℝ) : Particle :=
  let acc := p.accumulated_force.mul p.inverse_mass
  let vel := p.velocity.add (acc.mul dt)
  let pos := p.position.add (vel.mul dt)
  { p with acceleration := acc, velocity := vel, position := pos }

/-- `Particle.integrate_verlet`, particles.py lines 185-207. -/
def integrate_verlet (p : Particle) (dt : ℝ) : Particle :=
  let acc := p.accumulated_force.mul p.inverse_mass
  let temp := p.position
  let pos := ((p.position.mul 2).sub p.prev_position).add (acc.mul (dt * dt))
  let vel := (pos.sub temp).div dt
  { p with acceleration := acc, position := pos, prev_position := temp, velocity := vel }

/-- `Particle.integrate`, particles.py lines 209-222: dispatch on the
method (`RK4` has no branch, so the motion state is untouched), then
advance `age` and evaluate the lifetime check. -/
def integrate (p : Particle) (dt : ℝ) (method : IntegrationType) : Particle :=
  let p1 :=
    match method with
    | IntegrationType.EULER => p.integrate_euler dt
    | IntegrationType.SEMI_IMPLICIT => p.integrate_semi_implicit dt
    | IntegrationType.VERLET => p.integrate_verlet dt
    | IntegrationType.RK4 => p
  let p2 := { p1 with age := p1.age + 1 }
  if p2.max_age > 0 ∧ p2.age ≥ p2.max_age then { p2 with alive := false } else p2

/-- `Particle.is_expired`, particles.py lines 224-237. -/
def is_expired (p : Particle) (bounds : ℝ × ℝ × ℝ × ℝ) : Bool :=
  if !p.alive then true
  else
    let margin : ℝ := 5
    decide (p.position.x < bounds.1 - margin) ||
    decide (p.position.x > bounds.2.2.1 + margin) ||
    decide (p.position.y < bounds.2.1 - margin) ||
    decide (p.position.y > bounds.2.2.2 + margin)

end Particle

/-- A force generator, modelled by the force it adds to a particle's
accumulator (`ForceGenerator.apply`, particles.py lines 240-246). -/
def ForceGen := Particle → ℝ → Vec2

/-- `GravityForce.apply`, particles.py lines 249-263. -/
def GravityForce.apply (gravity : ℝ) (direction : Vec2) : ForceGen := fun p _ =>
  let effective_g := gravity * (1 - p.buoyancy_factor)
  direction.mul (p.mass * effective_g)

/-- `DragForce.apply`, particles.py lines 266-291. -/
def DragForce.apply (coefficient : ℝ) : ForceGen := fun p dt =>
  let velocity := p.velocity
  let speed_sq := velocity.magnitude_squared
  if speed_sq > 0.0001 then
    let drag_magnitude := coefficient * speed_sq * p.drag_coefficient
    let drag_direction := velocity.normalized.neg
    let max_drag := speed_sq / dt * p.mass
    drag_direction.mul (min drag_magnitude (max_drag * 0.99))
  else ⟨0, 0⟩

/-- One particle's pass through the body of the substep loop of
`ParticleSystem.update`, particles.py lines 397-410: clear forces, apply
every generator in order, integrate, clamp velocity. -/
def stepParticle (gens : List ForceGen) (cfg : PhysicsConfig) (sub_dt : ℝ)
    (p : Particle) : Particle :=
  let p1 := p.clear_forces
  let p2 := gens.foldl (fun q g => q.apply_force (g q sub_dt)) p1
  let p3 := p2.integrate sub_dt cfg.integration
  if p3.velocity.magnitude > cfg.max_velocity then
    { p3 with velocity := p3.velocity.clamped cfg.max_velocity }
  else p3

/-- `ParticleSystem`, particles.py lines 357-416. -/
structure ParticleSystem where
  config : PhysicsConfig := {}
  bounds : ℝ × ℝ × ℝ × ℝ := (0, 0, 100, 50)
  particles : List Particle := []
  force_generators : List ForceGen := []
  frame_count : ℕ := 0
  active_particle_count : ℕ := 0
  peak_particle_count : ℕ := 0

/-- The particle collection after the substep loop of
`ParticleSystem.update` (before expiry removal). -/
def ParticleSystem.steppedParticles (s : ParticleSystem) (dt : ℝ) : List Particle :=
  let sub_dt := dt / (s.config.substeps : ℝ)
  (fun l => l.map (stepParticle s.force_generators s.config sub_dt))^[s.config.substeps]
    s.particles

/-- `ParticleSystem.update`, particles.py lines 389-416. -/
def ParticleSystem.update (s : ParticleSystem) (dt : ℝ) : ParticleSystem :=
  let stepped := s.steppedParticles dt
  let final :=
    if s.config.bounds_check then stepped.filter (fun p => !p.is_expired s.bounds)
    else stepped
  { s with particles := final,
           frame_count := s.frame_count + 1,
           active_particle_count := final.length }

end RealModels

/-! ### Claim C1 -/

/-- C1, counterexample: the claim says `calculate_heat_index(T, RH)`
returns `T` unchanged whenever `T ≤ 27 °C` or `RH ≤ 40 %`.  At
`T = 30, RH = 0` we have `RH ≤ 40`, yet the code evaluates the NOAA
polynomial (the guard tests only `temp_c < 27`) and the result is not
`30`. -/
theorem C1_counterexample : calculate_heat_index 30 0 ≠ 30 := by
  norm_num [calculate_heat_index]

/-- C1, amended: `calculate_wind_chill(T, w)` returns `T` unchanged
whenever `T ≥ 10 °C` or `w·3.6 < 4.8 km/h` (for every model `pw` of the
transcendental power `wind_kmh ** 0.16`); `calculate_heat_index(T, RH)`
returns `T` unchanged whenever `T < 27 °C` — but relative humidity is
never consulted, and `T = 27` exactly also evaluates the polynomial. -/
theorem C1_domain_guards :
    (∀ (pw : ℚ → ℚ) (t w : ℚ), 10 ≤ t ∨ w * 3.6 < 4.8 →
      calculate_wind_chill pw t w = t) ∧
    (∀ t rh : ℚ, t < 27 → calculate_heat_index t rh = t) := by
  constructor
  · intro pw t w h
    unfold calculate_wind_chill
    rw [if_pos]
    rcases h with h | h
    · exact Or.inl h
    · exact Or.inr h
  · intro t rh h
    unfold calculate_heat_index
    rw [if_pos h]

/-- C1, witness: `calculate_wind_chill(15 °C, 10 m/s) = 15` and
`calculate_heat_index(20 °C, 90 %) = 20`. -/
theorem C1_domain_guards_witness :
    calculate_wind_chill (fun q => q) 15 10 = 15 ∧ calculate_heat_index 20 90 = 20 :=
  ⟨C1_domain_guards.1 (fun q => q) 15 10 (Or.inl (by norm_num)),
   C1_domain_guards.2 20 90 (by norm_num)⟩

/-! ### Claim C2 -/

/-- C2, counterexample: `StabilityClass.STABLE` is never the result of
`classify_stability` for any atmospheric state, and the result is not a
function of the claimed cloud-cover bands `<30 / <70 / ≥70`: at
`wind = 9`, `clouds = 70` and `clouds = 80` lie in the same (`≥70`) band
yet classify differently. -/
theorem C2_counterexample :
    (¬ ∃ w c : ℚ, classify_stability w c = StabilityClass.STABLE) ∧
    classify_stability 9 70 = StabilityClass.SLIGHTLY_STABLE ∧
    classify_stability 9 80 = StabilityClass.NEUTRAL := by
  refine ⟨?_, by norm_num [classify_stability], by norm_num [classify_stability]⟩
  rintro ⟨w, c, h⟩
  unfold classify_stability at h
  split_ifs at h

/-- C2, amended: `classify_stability` is a total function of the state's
wind speed and cloud cover; away from the `clouds = 70` boundary (where
the calm rows test `< 70` but the strong-wind row tests `> 70`) it equals
the 2D decision table over wind bands `<2/<5/<8/≥8` and cloud bands
`<30/<70/≥70`; five of the six classes (`VERY_UNSTABLE` through
`SLIGHTLY_STABLE`) are attained, and `STABLE` is never returned. -/
theorem C2_stability_table :
    (∀ w c : ℚ, c ≠ 70 →
      classify_stability w c = stabilityTable (windBand w) (cloudBand c)) ∧
    (∀ w c : ℚ, classify_stability w c ≠ StabilityClass.STABLE) ∧
    classify_stability 0 0 = StabilityClass.VERY_UNSTABLE ∧
    classify_stability 0 50 = StabilityClass.UNSTABLE ∧
    classify_stability 3 50 = StabilityClass.SLIGHTLY_UNSTABLE ∧
    classify_stability 6 0 = StabilityClass.NEUTRAL ∧
    classify_stability 9 0 = StabilityClass.SLIGHTLY_STABLE := by
  refine ⟨?_, ?_, by norm_num [classify_stability], by norm_num [classify_stability],
    by norm_num [classify_stability], by norm_num [classify_stability],
    by norm_num [classify_stability]⟩
  · intro w c hc
    unfold classify_stability stabilityTable windBand cloudBand
    split_ifs <;> first | rfl | (exfalso; first | linarith | exact hc (by linarith))
  · intro w c
    unfold classify_stability
    split_ifs <;> exact fun h => StabilityClass.noConfusion h

/-- C2, witness: at wind 9 m/s and cloud cover 80 % the classification
agrees with the decision table. -/
theorem C2_stability_table_witness :
    classify_stability 9 80 = stabilityTable (windBand 9) (cloudBand 80) :=
  C2_stability_table.1 9 80 (by norm_num)

/-! ### Claim C4 -/

/-- On an over-budget frame `adjust_quality` takes the overrun branch:
bump the counter, and past five overruns apply the floored −0.1 step. -/
lemma adjust_quality_overrun_step (B ft : ℚ) (hft : ft > B * 1.2) (q : ℚ) (k : ℤ) :
    adjust_quality B ⟨q, k⟩ ft =
      if k + 1 > 5 then ⟨max 0.3 (q - 0.1), 0⟩ else ⟨q, k + 1⟩ := by
  simp only [adjust_quality]
  rw [if_pos hft]

/-- One `adjust_quality` call keeps `quality_level` at or above the 0.3
floor. -/
lemma adjust_quality_floor (B : ℚ) (s : QualityState) (ft : ℚ)
    (h : 0.3 ≤ s.quality_level) : 0.3 ≤ (adjust_quality B s ft).quality_level := by
  simp only [adjust_quality]
  split_ifs
  · exact le_max_left _ _
  · exact h
  · exact le_min (by norm_num) (by linarith)
  · exact h

/-- Any run of `adjust_quality` calls keeps `quality_level` at or above
the 0.3 floor. -/
lemma adjustRun_floor (B : ℚ) (l : List ℚ) :
    ∀ s : QualityState, 0.3 ≤ s.quality_level →
      0.3 ≤ (adjustRun B s l).quality_level := by
  induction l with
  | nil => intro s h; exact h
  | cons ft rest ih =>
      intro s h
      exact ih (adjust_quality B s ft) (adjust_quality_floor B s ft h)

/-- On an over-budget frame, `adjust_quality` never raises
`quality_level` above a bound `c ≥ 0.3` it already satisfies. -/
lemma adjust_quality_overrun_le (B ft c : ℚ) (s : QualityState)
    (hft : ft > B * 1.2) (h3 : 0.3 ≤ c) (hq : s.quality_level ≤ c) :
    (adjust_quality B s ft).quality_level ≤ c := by
  rw [adjust_quality_overrun_step B ft hft s.quality_level s.overrun_count]
  split_ifs
  · exact max_le h3 (by linarith)
  · exact hq

/-- Iterating over-budget frames never raises `quality_level` above a
bound `c ≥ 0.3` it already satisfies. -/
lemma adjustRun_overrun_le (B ft c : ℚ) (hft : ft > B * 1.2) (h3 : 0.3 ≤ c) :
    ∀ (m : ℕ) (s : QualityState), s.quality_level ≤ c →
      (adjustRun B s (List.replicate m ft)).quality_level ≤ c := by
  intro m
  induction m with
  | zero => intro s h; exact h
  | succ k ih =>
      intro s h
      rw [List.replicate_succ]
      exact ih (adjust_quality B s ft) (adjust_quality_overrun_le B ft c s hft h3 h)

/-- Six consecutive over-budget frames from the initial state lower
`quality_level` to exactly 0.9 and reset the overrun counter. -/
lemma adjustRun_six (B ft : ℚ) (hft : ft > B * 1.2) :
    adjustRun B initQuality (List.replicate 6 ft) = ⟨0.9, 0⟩ := by
  norm_num [adjustRun, initQuality, List.replicate, List.foldl,
    adjust_quality_overrun_step B ft hft, max_def]

/-- C4: from `quality_level = 1.0` and overrun counter 0, (i) six or more
consecutive frames over 1.2× budget leave `quality_level` strictly below
1; (ii) exactly six such frames give `quality_level = 0.9` with the
counter reset to 0 (the fixed −0.1 step); (iii) after every sequence of
`adjust_quality` calls `quality_level` stays ≥ 0.3; (iv) a frame under
0.7× budget sets `quality_level` to `min 1.0 (quality_level + 0.02)`. -/
theorem C4_adjust_quality_hysteresis :
    (∀ (B ft : ℚ) (n : ℕ), ft > B * 1.2 → 6 ≤ n →
      (adjustRun B initQuality (List.replicate n ft)).quality_level < 1) ∧
    (∀ B ft : ℚ, ft > B * 1.2 →
      adjustRun B initQuality (List.replicate 6 ft) = ⟨0.9, 0⟩) ∧
    (∀ (B : ℚ) (l : List ℚ), 0.3 ≤ (adjustRun B initQuality l).quality_level) ∧
    (∀ (B ft : ℚ) (s : QualityState), 0 < B → ft < B * 0.7 →
      adjust_quality B s ft =
        ⟨min 1.0 (s.quality_level + 0.02), max 0 (s.overrun_count - 1)⟩) := by
  refine ⟨?_, adjustRun_six, ?_, ?_⟩
  · intro B ft n hft hn
    obtain ⟨m, rfl⟩ : ∃ m, n = 6 + m := ⟨n - 6, by omega⟩
    have h6 := adjustRun_six B ft hft
    have : (adjustRun B initQuality (List.replicate (6 + m) ft)).quality_level ≤ 0.9 := by
      rw [List.replicate_add]
      unfold adjustRun at h6 ⊢
      rw [List.foldl_append, h6]
      exact adjustRun_overrun_le B ft 0.9 hft (by norm_num) m ⟨0.9, 0⟩ (le_refl _)
    linarith
  · intro B l
    exact adjustRun_floor B l initQuality (by norm_num [initQuality])
  · intro B ft s hB hft
    have hn : ¬ ft > B * 1.2 := by push_neg; linarith
    simp only [adjust_quality]
    rw [if_neg hn, if_pos hft]

/-- C4, witness: with a 10 ms budget, six frames of 13 ms (> 1.2×10)
drop the quality to 0.9 and reset the counter; a 1 ms frame (< 0.7×10)
applies the +0.02 capped increase rule. -/
theorem C4_adjust_quality_hysteresis_witness :
    adjustRun 10 initQuality (List.replicate 6 13) = ⟨0.9, 0⟩ ∧
    adjust_quality 10 initQuality 1 =
      ⟨min 1.0 (initQuality.quality_level + 0.02), max 0 (initQuality.overrun_count - 1)⟩ :=
  ⟨C4_adjust_quality_hysteresis.2.1 10 13 (by norm_num),
   C4_adjust_quality_hysteresis.2.2.2 10 1 initQuality (by norm_num) (by norm_num)⟩

/-! ### Claim C8 -/

/-- Unfolding `dictSet` on a matching head key. -/
lemma dictSet_cons_eq (k : ℤ × ℤ × ℤ) (c c' : RenderCommand) (rest : RenderQueue) :
    dictSet k c ((k, c') :: rest) = (k, c) :: rest := by
  simp [dictSet]

/-- Unfolding `dictSet` on a non-matching head key. -/
lemma dictSet_cons_ne (k k' : ℤ × ℤ × ℤ) (c c' : RenderCommand) (rest : RenderQueue)
    (h : k' ≠ k) : dictSet k c ((k', c') :: rest) = (k', c') :: dictSet k c rest := by
  simp [dictSet, h]

/-- Looking up the key just written returns the new command. -/
lemma dictGet_dictSet_self (k : ℤ × ℤ × ℤ) (c : RenderCommand) :
    ∀ q : RenderQueue, dictGet k (dictSet k c q) = some c := by
  intro q
  induction q with
  | nil => simp [dictSet, dictGet]
  | cons e rest ih =>
      obtain ⟨k', c'⟩ := e
      by_cases h : k' = k
      · subst h
        rw [dictSet_cons_eq]
        simp [dictGet]
      · rw [dictSet_cons_ne k k' c c' rest h]
        simp only [dictGet, if_neg h]
        exact ih

/-- `queueKeys` on the empty queue. -/
lemma queueKeys_nil : queueKeys [] = [] := rfl

/-- `queueKeys` on a cons cell. -/
lemma queueKeys_cons (e : (ℤ × ℤ × ℤ) × RenderCommand) (rest : RenderQueue) :
    queueKeys (e :: rest) = e.1 :: queueKeys rest := rfl

/-- Membership in the keys of a dict after assignment. -/
lemma mem_queueKeys_dictSet (a k : ℤ × ℤ × ℤ) (c : RenderCommand) :
    ∀ q : RenderQueue, a ∈ queueKeys (dictSet k c q) ↔ a = k ∨ a ∈ queueKeys q := by
  intro q
  induction q with
  | nil => simp [dictSet, queueKeys_cons, queueKeys_nil]
  | cons e rest ih =>
      obtain ⟨k', c'⟩ := e
      by_cases h : k' = k
      · subst h
        rw [dictSet_cons_eq]
        simp only [queueKeys_cons, List.mem_cons]
        tauto
      · rw [dictSet_cons_ne k k' c c' rest h]
        simp only [queueKeys_cons, List.mem_cons, ih]
        tauto

/-- Python dict assignment preserves distinctness of keys. -/
lemma queueKeys_nodup_dictSet (k : ℤ × ℤ × ℤ) (c : RenderCommand) :
    ∀ q : RenderQueue, (queueKeys q).Nodup → (queueKeys (dictSet k c q)).Nodup := by
  intro q
  induction q with
  | nil => intro _; simp [dictSet, queueKeys_cons, queueKeys_nil]
  | cons e rest ih =>
      obtain ⟨k', c'⟩ := e
      intro hnd
      rw [queueKeys_cons] at hnd
      obtain ⟨hk', hrest⟩ := List.nodup_cons.mp hnd
      by_cases h : k' = k
      · subst h
        rw [dictSet_cons_eq]
        simp only [queueKeys_cons]
        exact List.nodup_cons.mpr ⟨hk', hrest⟩
      · rw [dictSet_cons_ne k k' c c' rest h]
        simp only [queueKeys_cons]
        refine List.nodup_cons.mpr ⟨?_, ih hrest⟩
        rw [mem_queueKeys_dictSet]
        rintro (rfl | hmem)
        · exact h rfl
        · exact hk' hmem

/-- C8: `get_sorted` returns commands in non-decreasing layer-value
order for every queue; `add` makes the just-written key map to the new
command (last write at an identical `(x, y, layer)` key wins); and every
queue built by a sequence of `add` calls has pairwise-distinct keys —
exactly one command per occupied key. -/
theorem C8_render_queue :
    (∀ q : RenderQueue, List.Sorted cmdLE q.get_sorted) ∧
    (∀ (q : RenderQueue) (c : RenderCommand),
      dictGet c.key (RenderQueue.add c q) = some c) ∧
    (∀ cs : List RenderCommand, (queueKeys (buildQueue cs)).Nodup) := by
  refine ⟨fun q => List.sorted_insertionSort cmdLE _, ?_, ?_⟩
  · intro q c
    exact dictGet_dictSet_self c.key c q
  · intro cs
    have main : ∀ (cs : List RenderCommand) (q : RenderQueue), (queueKeys q).Nodup →
        (queueKeys (cs.foldl (fun q c => RenderQueue.add c q) q)).Nodup := by
      intro cs
      induction cs with
      | nil => intro q h; exact h
      | cons c rest ih =>
          intro q h
          exact ih (RenderQueue.add c q) (queueKeys_nodup_dictSet c.key c q h)
    exact main cs [] (by simp [queueKeys])

/-! ### Claim C7 -/

/-- The doubled permutation table has 512 entries, all below 256. -/
lemma perm_table_facts (p : List ℕ) (hp : p.Perm (List.range 256)) :
    (p ++ p).length = 512 ∧ ∀ v ∈ p ++ p, v < 256 := by
  have hlen : p.length = 256 := by simpa using hp.length_eq
  refine ⟨by simp [hlen], ?_⟩
  intro v hv
  rcases List.mem_append.mp hv with h | h <;>
    exact List.mem_range.mp (hp.mem_iff.mp h)

/-- In-bounds lookup into the doubled table yields a value below 256. -/
lemma table_get {pp : List ℕ} (hlen : pp.length = 512) (hval : ∀ v ∈ pp, v < 256)
    {i : ℕ} (hi : i < 512) : ∃ a, pp[i]? = some a ∧ a < 256 := by
  have h : i < pp.length := by omega
  exact ⟨pp[i], List.getElem?_eq_getElem h, hval _ (List.getElem_mem h)⟩

/-- In-bounds lookup into the `% 12` table yields a value below 12. -/
lemma mod12_get {pp : List ℕ} (hlen : pp.length = 512)
    {i : ℕ} (hi : i < 512) : ∃ a, (pp.map (· % 12))[i]? = some a ∧ a < 12 := by
  have h : i < (pp.map (· % 12)).length := by simp [hlen]; omega
  refine ⟨(pp.map (· % 12))[i], List.getElem?_eq_getElem h, ?_⟩
  have h' : i < pp.length := by simpa [hlen] using h
  rw [List.getElem_map]
  omega

/-- `_gradient` always succeeds: `hash_val & 7` indexes the 8-entry
gradient list. -/
lemma gradient_total (h : ℕ) (x y : ℚ) : ∃ g, gradient h x y = some g := by
  have hlt : h % 8 < GRADIENTS_2D.length := by
    have : h % 8 < 8 := Nat.mod_lt _ (by norm_num)
    simpa [GRADIENTS_2D]
  rw [gradient, List.getElem?_eq_getElem hlt]
  exact ⟨_, rfl⟩

/-- `PerlinNoise.sample` is total: every permutation-table index it
computes is within the 512-entry doubled table. -/
lemma perlinSample_isSome (p : List ℕ) (hp : p.Perm (List.range 256)) (x y : ℚ) :
    (perlinSample (p ++ p) x y).isSome := by
  obtain ⟨hlen, hval⟩ := perm_table_facts p hp
  have hxi : (⌊x⌋ % 256).toNat < 256 := by omega
  have hyi : (⌊y⌋ % 256).toNat < 256 := by omega
  simp only [perlinSample]
  obtain ⟨pxi, e1, b1⟩ := table_get hlen hval (i := (⌊x⌋ % 256).toNat) (by omega)
  rw [e1]; simp only [Option.bind_eq_bind', Option.some_bind']
  obtain ⟨aa, e2, b2⟩ := table_get hlen hval (i := pxi + (⌊y⌋ % 256).toNat) (by omega)
  rw [e2]; simp only [Option.bind_eq_bind', Option.some_bind']
  obtain ⟨ab, e3, b3⟩ := table_get hlen hval (i := pxi + (⌊y⌋ % 256).toNat + 1) (by omega)
  rw [e3]; simp only [Option.bind_eq_bind', Option.some_bind']
  obtain ⟨pxi1, e4, b4⟩ := table_get hlen hval (i := (⌊x⌋ % 256).toNat + 1) (by omega)
  rw [e4]; simp only [Option.bind_eq_bind', Option.some_bind']
  obtain ⟨ba, e5, b5⟩ := table_get hlen hval (i := pxi1 + (⌊y⌋ % 256).toNat) (by omega)
  rw [e5]; simp only [Option.bind_eq_bind', Option.some_bind']
  obtain ⟨bb, e6, b6⟩ := table_get hlen hval (i := pxi1 + (⌊y⌋ % 256).toNat + 1) (by omega)
  rw [e6]; simp only [Option.bind_eq_bind', Option.some_bind']
  obtain ⟨g1, eg1⟩ := gradient_total aa (x - (⌊x⌋ : ℚ)) (y - (⌊y⌋ : ℚ))
  rw [eg1]; simp only [Option.bind_eq_bind', Option.some_bind']
  obtain ⟨g2, eg2⟩ := gradient_total ba (x - (⌊x⌋ : ℚ) - 1) (y - (⌊y⌋ : ℚ))
  rw [eg2]; simp only [Option.bind_eq_bind', Option.some_bind']
  obtain ⟨g3, eg3⟩ := gradient_total ab (x - (⌊x⌋ : ℚ)) (y - (⌊y⌋ : ℚ) - 1)
  rw [eg3]; simp only [Option.bind_eq_bind', Option.some_bind']
  obtain ⟨g4, eg4⟩ := gradient_total bb (x - (⌊x⌋ : ℚ) - 1) (y - (⌊y⌋ : ℚ) - 1)
  rw [eg4]; simp only [Option.bind_eq_bind', Option.some_bind']
  rfl

/-- `simplexCore` is total whenever the cell hashes are below 256 and
the triangle offsets are at most 1. -/
lemma simplexCore_isSome {pp : List ℕ} (hlen : pp.length = 512)
    (hval : ∀ v ∈ pp, v < 256) (ii jj i1 j1 : ℕ) (x0 y0 x1 y1 x2 y2 : ℝ)
    (hii : ii < 256) (hjj : jj < 256) (hi1 : i1 ≤ 1) (hj1 : j1 ≤ 1) :
    (simplexCore pp ii jj i1 j1 x0 y0 x1 y1 x2 y2).isSome := by
  simp only [simplexCore]
  obtain ⟨pjj, e1, b1⟩ := table_get hlen hval (i := jj) (by omega)
  rw [e1]; simp only [Option.bind_eq_bind', Option.some_bind']
  obtain ⟨gi0, e2, b2⟩ := mod12_get hlen (i := ii + pjj) (by omega)
  rw [e2]; simp only [Option.bind_eq_bind', Option.some_bind']
  obtain ⟨pjj1, e3, b3⟩ := table_get hlen hval (i := jj + j1) (by omega)
  rw [e3]; simp only [Option.bind_eq_bind', Option.some_bind']
  obtain ⟨gi1, e4, b4⟩ := mod12_get hlen (i := ii + i1 + pjj1) (by omega)
  rw [e4]; simp only [Option.bind_eq_bind', Option.some_bind']
  obtain ⟨pjj2, e5, b5⟩ := table_get hlen hval (i := jj + 1) (by omega)
  rw [e5]; simp only [Option.bind_eq_bind', Option.some_bind']
  obtain ⟨gi2, e6, b6⟩ := mod12_get hlen (i := ii + 1 + pjj2) (by omega)
  rw [e6]; simp only [Option.bind_eq_bind', Option.some_bind']
  have hg : ∀ g : ℕ, g < 12 → ∃ a, GRAD3[g]? = some a := by
    intro g hglt
    have : g < GRAD3.length := by simp [GRAD3]; omega
    exact ⟨GRAD3[g], List.getElem?_eq_getElem this⟩
  obtain ⟨a0, ea0⟩ := hg gi0 b2
  rw [ea0]; simp only [Option.bind_eq_bind', Option.some_bind']
  obtain ⟨a1, ea1⟩ := hg gi1 b4
  rw [ea1]; simp only [Option.bind_eq_bind', Option.some_bind']
  obtain ⟨a2, ea2⟩ := hg gi2 b6
  rw [ea2]; simp only [Option.bind_eq_bind', Option.some_bind']
  rfl

/-- `SimplexNoise.sample` is total: every computed table index is in
bounds. -/
lemma simplexSample_isSome (p : List ℕ) (hp : p.Perm (List.range 256)) (x y : ℝ) :
    (simplexSample (p ++ p) x y).isSome := by
  obtain ⟨hlen, hval⟩ := perm_table_facts p hp
  simp only [simplexSample]
  apply simplexCore_isSome hlen hval
  · omega
  · omega
  · split_ifs <;> norm_num
  · split_ifs <;> norm_num

/-- The fbm octave loop succeeds whenever the base noise is total. -/
lemma fbmLoop_isSome (base : ℚ → ℚ → Option ℚ) (hbase : ∀ a b, (base a b).isSome)
    (x y scale pers lac : ℚ) :
    ∀ (n : ℕ) (st : ℚ × ℚ × ℚ × ℚ), (fbmLoop base x y scale pers lac n st).isSome := by
  intro n
  induction n with
  | zero => intro st; simp [fbmLoop]
  | succ k ih =>
      rintro ⟨total, freq, amp, maxAmp⟩
      obtain ⟨v, hv⟩ :=
        Option.isSome_iff_exists.mp (hbase (x * freq * scale) (y * freq * scale))
      simp only [fbmLoop]
      rw [hv]; simp only [Option.bind_eq_bind', Option.some_bind']
      exact ih _

/-- The accumulated `max_amplitude` never decreases along the loop when
the persistence and current amplitude are nonnegative. -/
lemma fbmLoop_maxAmp_le (base : ℚ → ℚ → Option ℚ) (x y scale pers lac : ℚ)
    (hpers : 0 ≤ pers) :
    ∀ (n : ℕ) (total freq amp maxAmp : ℚ) (st' : ℚ × ℚ × ℚ × ℚ), 0 ≤ amp →
      fbmLoop base x y scale pers lac n (total, freq, amp, maxAmp) = some st' →
      maxAmp ≤ st'.2.2.2 := by
  intro n
  induction n with
  | zero =>
      intro total freq amp maxAmp st' _ h
      simp only [fbmLoop, Option.some_inj] at h
      rw [← h]
  | succ k ih =>
      intro total freq amp maxAmp st' ha h
      simp only [fbmLoop] at h
      cases hb : base (x * freq * scale) (y * freq * scale) with
      | none => rw [hb] at h; simp at h
      | some v =>
          rw [hb] at h
          simp only [Option.bind_eq_bind', Option.some_bind'] at h
          have step := ih (total + v * amp) (freq * lac) (amp * pers) (maxAmp + amp) st'
            (mul_nonneg ha hpers) h
          linarith

/-- Starting the loop at amplitude 1, at least one octave makes the
amplitude sum at least 1. -/
lemma fbmLoop_maxAmp_ge_one (base : ℚ → ℚ → Option ℚ) (x y scale pers lac : ℚ)
    (hpers : 0 ≤ pers) (k : ℕ) (st' : ℚ × ℚ × ℚ × ℚ)
    (h : fbmLoop base x y scale pers lac (k + 1) (0, 1, 1, 0) = some st') :
    1 ≤ st'.2.2.2 := by
  simp only [fbmLoop] at h
  cases hb : base (x * 1 * scale) (y * 1 * scale) with
  | none => rw [hb] at h; simp at h
  | some v =>
      rw [hb] at h
      simp only [Option.bind_eq_bind', Option.some_bind'] at h
      have step := fbmLoop_maxAmp_le base x y scale pers lac hpers k
        (0 + v * 1) (1 * lac) (1 * pers) (0 + 1) st' (by linarith) h
      linarith

/-- `FractalNoise.sample` is total for a total base noise when the
effective octave count is at least 1 and the persistence nonnegative
(the amplitude-sum divisor is then at least 1). -/
lemma fractalSample_isSome (base : ℚ → ℚ → Option ℚ) (hbase : ∀ a b, (base a b).isSome)
    (scale : ℚ) (octaves : ℤ) (pers lac x y : ℚ)
    (hoct : 1 ≤ octaves) (hpers : 0 ≤ pers) :
    (fractalSample base scale octaves pers lac x y).isSome := by
  obtain ⟨k, hk⟩ : ∃ k, octaves.toNat = k + 1 := ⟨octaves.toNat - 1, by omega⟩
  obtain ⟨st, hst⟩ := Option.isSome_iff_exists.mp
    (fbmLoop_isSome base hbase x y scale pers lac octaves.toNat (0, 1, 1, 0))
  have h1 : 1 ≤ st.2.2.2 :=
    fbmLoop_maxAmp_ge_one base x y scale pers lac hpers k st (by rw [← hk]; exact hst)
  simp only [fractalSample]
  rw [hst]; simp only [Option.bind_eq_bind', Option.some_bind']
  rw [if_neg (by intro h0; rw [h0] at h1; norm_num at h1)]
  rfl

/-- `DomainWarp.sample` is total under the same conditions as its
fractal noise. -/
lemma domainWarpSample_isSome (base : ℚ → ℚ → Option ℚ)
    (hbase : ∀ a b, (base a b).isSome) (scale : ℚ) (octaves : ℤ)
    (pers lac ws x y : ℚ) (hoct : 1 ≤ octaves) (hpers : 0 ≤ pers) :
    (domainWarpSample base scale octaves pers lac ws x y).isSome := by
  simp only [domainWarpSample]
  obtain ⟨v1, h1⟩ := Option.isSome_iff_exists.mp
    (fractalSample_isSome base hbase scale octaves pers lac x y hoct hpers)
  rw [h1]; simp only [Option.bind_eq_bind', Option.some_bind']
  obtain ⟨v2, h2⟩ := Option.isSome_iff_exists.mp
    (fractalSample_isSome base hbase scale octaves pers lac (x + 5.2) (y + 1.3) hoct hpers)
  rw [h2]; simp only [Option.bind_eq_bind', Option.some_bind']
  obtain ⟨v3, h3⟩ := Option.isSome_iff_exists.mp
    (fractalSample_isSome base hbase scale octaves pers lac
      (x + v1 * ws) (y + v2 * ws) hoct hpers)
  rw [h3]; simp only [Option.bind_eq_bind', Option.some_bind']
  obtain ⟨v4, h4⟩ := Option.isSome_iff_exists.mp
    (fractalSample_isSome base hbase scale octaves pers lac
      (x + v1 * ws + 1.7) (y + v2 * ws + 9.2) hoct hpers)
  rw [h4]; simp only [Option.bind_eq_bind', Option.some_bind']
  exact fractalSample_isSome base hbase scale octaves pers lac _ _ hoct hpers

/-- Unfolding one octave of the fbm loop. -/
lemma fbmLoop_succ_eq (base : ℚ → ℚ → Option ℚ) (x y scale pers lac : ℚ) (n : ℕ)
    (total freq amp maxAmp : ℚ) :
    fbmLoop base x y scale pers lac (n + 1) (total, freq, amp, maxAmp) =
      (base (x * freq * scale) (y * freq * scale)).bind fun nval =>
        fbmLoop base x y scale pers lac n
          (total + nval * amp, freq * lac, amp * pers, maxAmp + amp) := rfl

/-- The fbm loop at zero octaves returns its state. -/
lemma fbmLoop_zero_eq (base : ℚ → ℚ → Option ℚ) (x y scale pers lac : ℚ)
    (st : ℚ × ℚ × ℚ × ℚ) :
    fbmLoop base x y scale pers lac 0 st = some st := rfl

/-- C7, counterexample: the claim says every octave/persistence
configuration yields a value with nonzero amplitude-sum divisor, but at
`octaves = 2`, `persistence = -1` the amplitude sum is `1 + (-1) = 0`,
and in Python `FractalNoise.sample` raises `ZeroDivisionError`
(modelled as `none`). -/
theorem C7_counterexample :
    fractalSample (perlinSample (List.range 256 ++ List.range 256)) 1 2 (-1) 2 0 0
      = none := by
  have hbase : ∀ a b : ℚ,
      (perlinSample (List.range 256 ++ List.range 256) a b).isSome :=
    fun a b => perlinSample_isSome _ (List.Perm.refl _) a b
  obtain ⟨v1, h1⟩ := Option.isSome_iff_exists.mp (hbase (0 * 1 * 1) (0 * 1 * 1))
  obtain ⟨v2, h2⟩ := Option.isSome_iff_exists.mp (hbase (0 * (1 * 2) * 1) (0 * (1 * 2) * 1))
  simp only [fractalSample]
  rw [show ((2 : ℤ).toNat) = 2 from rfl, show (2 : ℕ) = 1 + 1 from rfl, fbmLoop_succ_eq,
    h1, Option.some_bind', show (1 : ℕ) = 0 + 1 from rfl, fbmLoop_succ_eq, h2,
    Option.some_bind', fbmLoop_zero_eq]
  simp only [Option.bind_eq_bind', Option.some_bind']
  norm_num

/-- C7, amended: for every permutation table (any seed), all finite
inputs and every configuration with at least one octave and nonnegative
persistence, the four samplers return a value: every permutation-table
index stays within the 512-entry table and the fbm amplitude-sum divisor
is nonzero.  (Without the octave/persistence restriction this fails, see
the counterexample.) -/
theorem C7_noise_totality :
    (∀ (p : List ℕ) (x y : ℚ), p.Perm (List.range 256) →
      (perlinSample (p ++ p) x y).isSome) ∧
    (∀ (p : List ℕ) (x y : ℝ), p.Perm (List.range 256) →
      (simplexSample (p ++ p) x y).isSome) ∧
    (∀ (p : List ℕ) (scale : ℚ) (octaves : ℤ) (pers lac x y : ℚ),
      p.Perm (List.range 256) → 1 ≤ octaves → 0 ≤ pers →
      (fractalSample (perlinSample (p ++ p)) scale octaves pers lac x y).isSome) ∧
    (∀ (p : List ℕ) (scale : ℚ) (octaves : ℤ) (pers lac ws x y : ℚ),
      p.Perm (List.range 256) → 1 ≤ octaves → 0 ≤ pers →
      (domainWarpSample (perlinSample (p ++ p)) scale octaves pers lac ws x y).isSome) := by
  refine ⟨fun p x y hp => perlinSample_isSome p hp x y,
    fun p x y hp => simplexSample_isSome p hp x y, ?_, ?_⟩
  · intro p scale octaves pers lac x y hp hoct hpers
    exact fractalSample_isSome _ (fun a b => perlinSample_isSome p hp a b)
      scale octaves pers lac x y hoct hpers
  · intro p scale octaves pers lac ws x y hp hoct hpers
    exact domainWarpSample_isSome _ (fun a b => perlinSample_isSome p hp a b)
      scale octaves pers lac ws x y hoct hpers

/-- C7, witness: all four samplers succeed on the identity permutation
table at the origin with the default configuration (`octaves = 4`,
`persistence = 0.5`, `lacunarity = 2`, `scale = 1`,
`warp_strength = 4`). -/
theorem C7_noise_totality_witness :
    (perlinSample (List.range 256 ++ List.range 256) 0 0).isSome ∧
    (simplexSample (List.range 256 ++ List.range 256) 0 0).isSome ∧
    (fractalSample (perlinSample (List.range 256 ++ List.range 256)) 1 4 0.5 2 0 0).isSome ∧
    (domainWarpSample (perlinSample (List.range 256 ++ List.range 256)) 1 4 0.5 2 4 0 0).isSome :=
  ⟨C7_noise_totality.1 _ 0 0 (List.Perm.refl _),
   C7_noise_totality.2.1 _ 0 0 (List.Perm.refl _),
   C7_noise_totality.2.2.1 _ 1 4 0.5 2 0 0 (List.Perm.refl _) (by norm_num) (by norm_num),
   C7_noise_totality.2.2.2 _ 1 4 0.5 2 4 0 0 (List.Perm.refl _) (by norm_num) (by norm_num)⟩

/-! ### Claim C10 -/

/-- C10: `Vector2` arithmetic is total at its singular points — division
by the zero scalar returns the zero vector instead of raising, and
`normalized()` of the zero vector returns the zero vector (so
`normalized` and `clamped`, total Lean functions here, have no error
case). -/
theorem C10_vector_totality :
    (∀ v : Vec2, v.div 0 = ⟨0, 0⟩) ∧ (Vec2.normalized ⟨0, 0⟩ = ⟨0, 0⟩) := by
  constructor
  · intro v
    simp [Vec2.div]
  · norm_num [Vec2.normalized, Vec2.magnitude]

/-! ### Claim C9 -/

/-- `integrate` advances `age` by exactly 1 for every method. -/
lemma integrate_age (p : Particle) (dt : ℝ) (method : IntegrationType) :
    (p.integrate dt method).age = p.age + 1 := by
  cases method <;>
    (simp only [Particle.integrate, Particle.integrate_euler,
      Particle.integrate_semi_implicit, Particle.integrate_verlet]
     split_ifs <;> rfl)

/-- `integrate` preserves `max_age` for every method. -/
lemma integrate_max_age (p : Particle) (dt : ℝ) (method : IntegrationType) :
    (p.integrate dt method).max_age = p.max_age := by
  cases method <;>
    (simp only [Particle.integrate, Particle.integrate_euler,
      Particle.integrate_semi_implicit, Particle.integrate_verlet]
     split_ifs <;> rfl)

/-- The liveness update of `integrate`: the flag is cleared exactly when
the lifetime check on the incremented age fires, and kept otherwise. -/
lemma integrate_alive (p : Particle) (dt : ℝ) (method : IntegrationType) :
    (p.integrate dt method).alive =
      if p.max_age > 0 ∧ p.age + 1 ≥ p.max_age then false else p.alive := by
  cases method <;>
    (simp only [Particle.integrate, Particle.integrate_euler,
      Particle.integrate_semi_implicit, Particle.integrate_verlet]
     split_ifs <;> rfl)

/-- C9: starting from `age = 0` and `alive = true`, after `n` `integrate`
calls the particle with `max_age > 0` is alive iff `n < max_age` — the
flag flips to false exactly on the call where the age reaches `max_age` —
while a particle with `max_age ≤ 0` stays alive forever, for every
integration method. -/
theorem C9_lifetime (p : Particle) (dt : ℝ) (method : IntegrationType) (n : ℕ)
    (hage : p.age = 0) (halive : p.alive = true) :
    (0 < p.max_age →
      (((fun q : Particle => q.integrate dt method)^[n]) p).alive
        = decide ((n : ℤ) < p.max_age)) ∧
    (p.max_age ≤ 0 →
      (((fun q : Particle => q.integrate dt method)^[n]) p).alive = true) := by
  have key : ∀ m : ℕ,
      (((fun q : Particle => q.integrate dt method)^[m]) p).age = (m : ℤ) ∧
      (((fun q : Particle => q.integrate dt method)^[m]) p).max_age = p.max_age ∧
      (((fun q : Particle => q.integrate dt method)^[m]) p).alive
        = decide (p.max_age ≤ 0 ∨ (m : ℤ) < p.max_age) := by
    intro m
    induction m with
    | zero =>
        refine ⟨by simpa using hage, rfl, ?_⟩
        simp only [Function.iterate_zero, id_eq, halive]
        rcases le_or_lt p.max_age 0 with h | h
        · simp [h]
        · simp [h]
    | succ k ih =>
        obtain ⟨ha, hma, hal⟩ := ih
        rw [Function.iterate_succ_apply']
        refine ⟨?_, ?_, ?_⟩
        · rw [integrate_age, ha]; push_cast; ring
        · rw [integrate_max_age, hma]
        · rw [integrate_alive, ha, hma, hal]
          rcases le_or_lt p.max_age 0 with h | h
          · rw [if_neg (by omega)]
            simp only [decide_eq_decide]
            omega
          · by_cases hk : (k : ℤ) + 1 ≥ p.max_age
            · rw [if_pos ⟨h, hk⟩]
              symm
              rw [decide_eq_false_iff_not]
              push_cast
              omega
            · rw [if_neg (by tauto)]
              simp only [decide_eq_decide]
              push_cast at hk ⊢
              omega
  obtain ⟨_, _, hal⟩ := key n
  constructor
  · intro hpos
    rw [hal]
    simp only [decide_eq_decide]
    omega
  · intro hnonpos
    rw [hal]
    simp [hnonpos]

/-- A particle that expires after 2 steps. -/
def pAged : Particle := { max_age := 2 }

/-- C9, witness: the particle with `max_age = 2` is dead after exactly 2
integrate calls, and the default immortal particle survives 3 calls. -/
theorem C9_lifetime_witness :
    (((fun q : Particle => q.integrate 1 IntegrationType.SEMI_IMPLICIT)^[2]) pAged).alive
      = decide ((2 : ℤ) < pAged.max_age) ∧
    (((fun q : Particle => q.integrate 1 IntegrationType.VERLET)^[3]) { }).alive = true :=
  ⟨(C9_lifetime pAged 1 IntegrationType.SEMI_IMPLICIT 2 rfl rfl).1 (by norm_num [pAged]),
   (C9_lifetime { } 1 IntegrationType.VERLET 3 rfl rfl).2 (by norm_num)⟩

/-! ### Claim C6 -/

/-- `is_expired` is false exactly for a live particle whose position
lies within the bounds extended by the margin 5 on every side. -/
lemma is_expired_false_iff (p : Particle) (b : ℝ × ℝ × ℝ × ℝ) :
    p.is_expired b = false ↔
      (p.alive = true ∧ b.1 - 5 ≤ p.position.x ∧ p.position.x ≤ b.2.2.1 + 5 ∧
       b.2.1 - 5 ≤ p.position.y ∧ p.position.y ≤ b.2.2.2 + 5) := by
  unfold Particle.is_expired
  split_ifs with h
  · have ha : p.alive = false := by revert h; cases p.alive <;> simp
    simp [ha]
  · have ha : p.alive = true := by revert h; cases p.alive <;> simp
    simp only [ha, Bool.or_eq_false_iff, decide_eq_false_iff_not, not_lt, true_and]
    tauto

/-- Magnitudes are nonnegative. -/
lemma magnitude_nonneg (v : Vec2) : 0 ≤ v.magnitude := Real.sqrt_nonneg _

/-- Scaling a vector scales its magnitude by the absolute scalar. -/
lemma magnitude_mul (v : Vec2) (k : ℝ) : (v.mul k).magnitude = |k| * v.magnitude := by
  simp only [Vec2.mul, Vec2.magnitude]
  rw [show v.x * k * (v.x * k) + v.y * k * (v.y * k)
      = k ^ 2 * (v.x * v.x + v.y * v.y) by ring]
  rw [Real.sqrt_mul (sq_nonneg k), Real.sqrt_sq_eq_abs]

/-- Dividing a vector by a positive scalar divides its magnitude. -/
lemma magnitude_div_pos (v : Vec2) (c : ℝ) (hc : 0 < c) :
    (v.div c).magnitude = v.magnitude / c := by
  simp only [Vec2.div, if_pos (ne_of_gt hc), Vec2.magnitude]
  rw [show v.x / c * (v.x / c) + v.y / c * (v.y / c)
      = (v.x * v.x + v.y * v.y) / c ^ 2 by ring]
  rw [Real.sqrt_div' ((v.x * v.x + v.y * v.y)) (sq_nonneg c), Real.sqrt_sq hc.le]

/-- `Vector2.clamped` caps the magnitude at any nonnegative bound. -/
lemma clamped_magnitude_le (v : Vec2) (m : ℝ) (hm : 0 ≤ m) :
    (v.clamped m).magnitude ≤ m := by
  unfold Vec2.clamped
  split_ifs with h
  · have hpos : 0 < v.magnitude := lt_of_le_of_lt hm h
    unfold Vec2.normalized
    rw [if_pos hpos, magnitude_mul, magnitude_div_pos v _ hpos,
      div_self (ne_of_gt hpos), mul_one, abs_of_nonneg hm]
  · have : Vec2.magnitude ⟨v.x, v.y⟩ = v.magnitude := rfl
    rw [this]
    exact le_of_not_lt h

/-- After one substep body, the particle's speed is at most the
configured maximum (when that maximum is nonnegative). -/
lemma stepParticle_velocity_le (gens : List ForceGen) (cfg : PhysicsConfig)
    (sub_dt : ℝ) (p : Particle) (hm : 0 ≤ cfg.max_velocity) :
    (stepParticle gens cfg sub_dt p).velocity.magnitude ≤ cfg.max_velocity := by
  simp only [stepParticle]
  split_ifs with h
  · exact clamped_magnitude_le _ _ hm
  · exact le_of_not_lt h

/-- A particle system with a negative configured `max_velocity` (and no
expiry filter) holding one particle at rest. -/
def sysC6 : ParticleSystem :=
  { config := { max_velocity := -1, bounds_check := false }, particles := [{ }] }

/-- C6, counterexample: the claim quantifies over every system, but with
a configured `max_velocity = -1` a particle at rest survives `update`
with speed `0 > -1`: the clamp cannot bring a nonnegative magnitude
below a negative bound. -/
theorem C6_counterexample :
    ∃ p ∈ (sysC6.update 1).particles,
      sysC6.config.max_velocity < p.velocity.magnitude := by
  have hmem : (sysC6.update 1).particles
      = [stepParticle [] sysC6.config (1 / ((1 : ℕ) : ℝ)) { }] := rfl
  have hvel : (stepParticle [] sysC6.config (1 / ((1 : ℕ) : ℝ)) ({ } : Particle)).velocity
      = ⟨0, 0⟩ := by
    simp only [stepParticle, sysC6, List.foldl_nil, Particle.clear_forces,
      Particle.integrate, Particle.integrate_semi_implicit]
    norm_num [Vec2.mul, Vec2.add, Vec2.magnitude, Vec2.clamped, Vec2.normalized, Vec2.div]
  rw [hmem]
  refine ⟨_, List.mem_singleton_self _, ?_⟩
  rw [hvel]
  norm_num [sysC6, Vec2.magnitude]

/-- C6, amended: for every particle system whose configured
`max_velocity` is nonnegative and whose substep count is at least 1
(both hold for the default `PhysicsConfig`), every registered set of
force generators and every `dt`, all particles remaining after
`update(dt)` have speed at most `max_velocity`. -/
theorem C6_velocity_invariant (s : ParticleSystem) (dt : ℝ)
    (hm : 0 ≤ s.config.max_velocity) (hsub : 1 ≤ s.config.substeps) :
    ∀ p ∈ (s.update dt).particles, p.velocity.magnitude ≤ s.config.max_velocity := by
  intro p hp
  have hp' : p ∈ s.steppedParticles dt := by
    simp only [ParticleSystem.update] at hp
    split_ifs at hp with hb
    · exact (List.mem_filter.mp hp).1
    · exact hp
  obtain ⟨k, hk⟩ : ∃ k, s.config.substeps = k + 1 := ⟨s.config.substeps - 1, by omega⟩
  simp only [ParticleSystem.steppedParticles, hk, Function.iterate_succ_apply'] at hp'
  obtain ⟨q, _, rfl⟩ := List.mem_map.mp hp'
  exact stepParticle_velocity_le _ _ _ _ hm

/-- A default-configured system holding one default particle. -/
def sysDefault : ParticleSystem := { particles := [{ }] }

/-- One update of the default system leaves exactly the aged particle. -/
lemma sysDefault_update_particles :
    (sysDefault.update 1).particles = [{ age := 1 }] := by
  have hE : stepParticle [] sysDefault.config (1 / ((1 : ℕ) : ℝ)) ({ } : Particle)
      = { age := 1 } := by
    simp only [stepParticle, sysDefault, List.foldl_nil, Particle.clear_forces,
      Particle.integrate, Particle.integrate_semi_implicit]
    norm_num [Vec2.mul, Vec2.add, Vec2.magnitude, Vec2.clamped, Vec2.normalized, Vec2.div]
  have hexp : ({ age := 1 } : Particle).is_expired sysDefault.bounds = false := by
    rw [is_expired_false_iff]
    norm_num [sysDefault]
  rw [show (sysDefault.update 1).particles
      = List.filter (fun p => !p.is_expired sysDefault.bounds)
          [stepParticle [] sysDefault.config (1 / ((1 : ℕ) : ℝ)) { }] from rfl,
    hE, List.filter_cons]
  simp [hexp]

/-- C6, witness: in the default system with one default particle, the
particle remaining after one update respects the speed bound. -/
theorem C6_velocity_invariant_witness :
    ({ age := 1 } : Particle).velocity.magnitude ≤ sysDefault.config.max_velocity :=
  C6_velocity_invariant sysDefault 1 (by norm_num [sysDefault]) (by norm_num [sysDefault])
    { age := 1 } (by rw [sysDefault_update_particles]; exact List.mem_singleton_self _)

/-! ### Claim C5 -/

/-- A dead particle. -/
def pDead : Particle := { alive := false }

/-- A system with the expiry filter disabled holding one dead particle. -/
def sysC5 : ParticleSystem :=
  { config := { bounds_check := false }, particles := [pDead] }

/-- C5, counterexample: the claim quantifies over every system state,
but with `bounds_check = False` the removal pass is skipped entirely: a
particle whose liveness flag is false is retained by `update`. -/
theorem C5_counterexample :
    ∃ p ∈ (sysC5.update 1).particles, p.alive = false := by
  have hmem : (sysC5.update 1).particles
      = [stepParticle [] sysC5.config (1 / ((1 : ℕ) : ℝ)) pDead] := rfl
  have halive : (stepParticle [] sysC5.config (1 / ((1 : ℕ) : ℝ)) pDead).alive = false := by
    simp only [stepParticle, sysC5, List.foldl_nil, Particle.clear_forces]
    split_ifs <;>
      norm_num [Particle.integrate, Particle.integrate_semi_implicit, pDead]
  rw [hmem]
  exact ⟨_, List.mem_singleton_self _, halive⟩

/-- C5, amended: when the system's `bounds_check` toggle is on (the
default), `update(dt)` retains exactly those integrated particles that
are alive and whose position lies within the bounds rectangle extended
by the fixed margin 5; every dead or out-of-margin particle is removed
and no other particle is removed. -/
theorem C5_expiry_removal (s : ParticleSystem) (dt : ℝ)
    (hb : s.config.bounds_check = true) :
    ∀ p : Particle, p ∈ (s.update dt).particles ↔
      (p ∈ s.steppedParticles dt ∧ p.alive = true ∧
       s.bounds.1 - 5 ≤ p.position.x ∧ p.position.x ≤ s.bounds.2.2.1 + 5 ∧
       s.bounds.2.1 - 5 ≤ p.position.y ∧ p.position.y ≤ s.bounds.2.2.2 + 5) := by
  intro p
  simp only [ParticleSystem.update, hb, if_true, List.mem_filter, Bool.not_eq_true',
    is_expired_false_iff, and_assoc]

/-- C5, witness: the characterization instantiated at the default system
with one default particle, at the concrete aged particle. -/
theorem C5_expiry_removal_witness :
    ({ age := 1 } : Particle) ∈ (sysDefault.update 1).particles ↔
      (({ age := 1 } : Particle) ∈ sysDefault.steppedParticles 1 ∧
       ({ age := 1 } : Particle).alive = true ∧
       sysDefault.bounds.1 - 5 ≤ ({ age := 1 } : Particle).position.x ∧
       ({ age := 1 } : Particle).position.x ≤ sysDefault.bounds.2.2.1 + 5 ∧
       sysDefault.bounds.2.1 - 5 ≤ ({ age := 1 } : Particle).position.y ∧
       ({ age := 1 } : Particle).position.y ≤ sysDefault.bounds.2.2.2 + 5) :=
  C5_expiry_removal sysDefault 1 rfl { age := 1 }

/-! ### Claim C3 -/

/-- A particle moving at (3, 0) with unit mass and unit material drag
coefficient. -/
def pDrag : Particle := { velocity := ⟨3, 0⟩, drag_coefficient := 1 }

/-- C3, code-bug evaluation: with `DragForce(coefficient=10)` on `pDrag`
and `dt = 1`, the capped drag magnitude is `min(90, 9·0.99) = 8.91`,
giving post-step velocity `(-5.91, 0)`: its dot product with the
pre-step velocity `(3, 0)` is `-17.73 < 0` (the momentum is reversed in
a single step) and its speed `5.91` exceeds the pre-step speed `3`
(drag alone increased the speed).  The cap `|v|²/dt·mass` bounds the
impulse by `m·|v|²`, not by the momentum `m·|v|` as the code's own
comment intends. -/
theorem C3_drag_cap_bug :
    (stepParticle [DragForce.apply 10] { } 1 pDrag).velocity.dot pDrag.velocity < 0 ∧
    pDrag.velocity.magnitude <
      (stepParticle [DragForce.apply 10] { } 1 pDrag).velocity.magnitude := by
  have h9 : Real.sqrt 9 = 3 := by
    rw [show (9 : ℝ) = 3 ^ 2 by norm_num]
    exact Real.sqrt_sq (by norm_num)
  have h349281 : Real.sqrt 349281 = 591 := by
    rw [show (349281 : ℝ) = 591 ^ 2 by norm_num]
    exact Real.sqrt_sq (by norm_num)
  have h10000 : Real.sqrt 10000 = 100 := by
    rw [show (10000 : ℝ) = 100 ^ 2 by norm_num]
    exact Real.sqrt_sq (by norm_num)
  constructor <;>
    norm_num [stepParticle, DragForce.apply, Particle.apply_force, Particle.clear_forces,
      Particle.integrate, Particle.integrate_semi_implicit, Vec2.magnitude_squared,
      Vec2.normalized, Vec2.magnitude, Vec2.div, Vec2.neg, Vec2.mul, Vec2.add, Vec2.dot,
      List.foldl, pDrag, min_def, h9, h349281, h10000]

end OracleWeather
